import Mathlib

/-!
Shallow embedding of the crawl4AI RAG agent pipeline: the agent and its
retrieve tool (src/rag_agent.py), the chat session layer
(src/streamlit_app.py) and the CSV export utility
(src/view_chroma_data_full_export.py). The helpers imported from utils.py,
which is not among the provided sources, are modelled from the
specification, as are the internals of the external agent library.
-/

set_option linter.unusedVariables false

/-- Metadata map attached to a stored chunk: an association list from string
keys to string values. -/
abbrev Metadata := List (String × String)

/-- Lookup of a metadata key, as Python dict.get: some value when the key is
bound, none otherwise. -/
def meta_get (key : String) (m : Metadata) : Option String :=
  (m.find? fun kv => kv.1 == key).map Prod.snd

/-- One stored item of a collection: id, document text, embedding vector and
optional metadata map. -/
structure Item where
  id : String
  document : String
  embedding : List Int
  metadata : Option Metadata
deriving DecidableEq

/-- Named collection bound to one embedding function, holding its items. -/
structure Collection where
  name : String
  embedding_function : String
  items : List Item
deriving DecidableEq

/-- Handle to a persistent Chroma store: the directory it was opened at and
the collections it holds. -/
structure ChromaClient where
  path : String
  collections : List Collection
deriving DecidableEq

/-- Modelled from the spec: get_chroma_client of utils.py (absent from
src/), opening the persistent store at a directory; the contents found there
are supplied by the ambient store map. -/
def get_chroma_client (store : String → List Collection)
    (db_directory : String) : ChromaClient :=
  ⟨db_directory, store db_directory⟩

/-- Modelled from the spec: get_or_create_collection of utils.py (absent
from src/). Returns the existing collection with the given name
unconditionally, else a fresh empty collection bound to the given embedding
function. -/
def get_or_create_collection (client : ChromaClient) (name : String)
    (embedding_model_name : String) : Collection :=
  match client.collections.find? fun c => c.name == name with
  | some c => c
  | none => ⟨name, embedding_model_name, []⟩

/-- Classified retrieval failures of the spec error taxonomy. -/
inductive RetrievalError where
  | embeddingFailure
  | queryFailure
deriving DecidableEq

/-- One ranked retrieval result: id, document text, metadata and distance. -/
structure QueryResult where
  id : String
  document : String
  metadata : Option Metadata
  distance : Nat
deriving DecidableEq

/-- Modelled from the spec: query_collection of utils.py (absent from src/).
Embeds the query text, scores every stored item by distance to the query
vector, ranks ascending with stable insertion-order tie-break, and returns
the first k results; an embedding failure propagates as an error, while an
empty result list is an ordinary ok value. -/
def query_collection (embed : String → Except RetrievalError (List Int))
    (dist : List Int → List Int → Nat) (c : Collection) (query_text : String)
    (k : Nat) : Except RetrievalError (List QueryResult) :=
  match embed query_text with
  | Except.error e => Except.error e
  | Except.ok v =>
      Except.ok
        (((c.items.map fun it =>
            QueryResult.mk it.id it.document it.metadata
              (dist v it.embedding)).insertionSort
          fun a b => a.distance ≤ b.distance).take k)

/-- Modelled from the spec: one entry of the formatted context block — a
provenance line when the source metadata field is present, then the document
body. -/
def format_result_entry (r : QueryResult) : String :=
  match r.metadata.bind (meta_get "source") with
  | some src => "Source: " ++ src ++ "\n" ++ r.document
  | none => r.document

/-- Modelled from the spec: format_results_as_context of utils.py (absent
from src/): deterministic rendering of the ranked result set, one blank line
between entries. -/
def format_results_as_context (rs : List QueryResult) : String :=
  String.intercalate "\n\n" (rs.map format_result_entry)

/-- Dependencies for the RAG agent, as the RAGDeps dataclass of
src/rag_agent.py. -/
structure RAGDeps where
  chroma_client : ChromaClient
  collection_name : String
  embedding_model : String
  n_results : Nat
deriving DecidableEq

/-- Python runtime error raised by a bad call. -/
inductive PyError where
  | typeError (msg : String)
deriving DecidableEq

/-- Construction of the RAGDeps dataclass by keyword arguments: every field
is required, so a call omitting one raises TypeError. -/
def RAGDeps.construct (chroma_client : Option ChromaClient)
    (collection_name : Option String) (embedding_model : Option String)
    (n_results : Option Nat) : Except PyError RAGDeps :=
  match chroma_client, collection_name, embedding_model, n_results with
  | some c, some cn, some em, some n => Except.ok ⟨c, cn, em, n⟩
  | _, _, _, _ =>
      Except.error (PyError.typeError "RAGDeps missing required argument")

/-- Embedding of the retrieve tool of src/rag_agent.py. The model supplies
only search_query; the result count handed to the retrieval query is read
from the agent dependencies. query_fn stands for the imported
utils.query_collection. -/
def retrieve
    (query_fn : Collection → String → Nat → Except RetrievalError (List QueryResult))
    (deps : RAGDeps) (search_query : String) : Except RetrievalError String :=
  match query_fn
      (get_or_create_collection deps.chroma_client deps.collection_name
        deps.embedding_model)
      search_query deps.n_results with
  | Except.error e => Except.error e
  | Except.ok query_results => Except.ok (format_results_as_context query_results)

/-- Embedding of run_rag_agent of src/rag_agent.py: builds the dependencies —
without supplying the required n_results field — and only then would run the
agent; agent_run stands for the external agent.run. -/
def run_rag_agent (store : String → List Collection)
    (agent_run : String → RAGDeps → String) (question : String)
    (collection_name : String) (db_directory : String)
    (embedding_model : String) (n_results : Nat) : Except PyError String :=
  match RAGDeps.construct (some (get_chroma_client store db_directory))
      (some collection_name) (some embedding_model) none with
  | Except.error e => Except.error e
  | Except.ok deps => Except.ok (agent_run question deps)

/-- Message part kinds of the conversation, as the pydantic-ai message part
classes imported in src/streamlit_app.py. -/
inductive MessagePart where
  | systemPrompt (content : String)
  | userPrompt (content : String)
  | text (content : String)
  | toolCall (tool_name : String) (args : String)
  | toolReturn (tool_name : String) (content : String)
  | retryPrompt (content : String)
deriving DecidableEq

/-- One model message: a request or a response, each carrying parts. -/
inductive ModelMessage where
  | request (parts : List MessagePart)
  | response (parts : List MessagePart)
deriving DecidableEq

/-- Streamlit session state as used by src/streamlit_app.py: the optional
message history and the optional installed agent dependencies, absent before
first initialization to match the membership checks on st.session_state. -/
structure SessionState where
  messages : Option (List ModelMessage)
  agent_deps : Option RAGDeps
deriving DecidableEq

/-- Embedding of get_agent_deps of src/streamlit_app.py. -/
def get_agent_deps (store : String → List Collection)
    (collection_name_to_use : String) (n_results_to_use : Nat) : RAGDeps :=
  ⟨get_chroma_client store "./chroma_db", collection_name_to_use,
    "all-MiniLM-L6-v2", n_results_to_use⟩

/-- Embedding of the session-refresh step at the top of main in
src/streamlit_app.py: initialize the message history if absent; then, when
the installed dependencies are missing or differ in collection name or
result count from the current selection, install a wholesale new
dependencies bundle and clear the history, returning true for the st.rerun
call. The selected temperature takes no part in the decision. -/
def update_agent_deps (store : String → List Collection) (st : SessionState)
    (selected_collection_name : String) (n_results_to_retrieve : Nat)
    (selected_temperature : Rat) : SessionState × Bool :=
  let st1 : SessionState := ⟨some (st.messages.getD []), st.agent_deps⟩
  let current_deps_collection := st1.agent_deps.map RAGDeps.collection_name
  let current_deps_n_results := st1.agent_deps.map RAGDeps.n_results
  if st1.agent_deps = none ∨
      current_deps_collection ≠ some selected_collection_name ∨
      current_deps_n_results ≠ some n_results_to_retrieve then
    (⟨some [],
      some (get_agent_deps store selected_collection_name n_results_to_retrieve)⟩,
      true)
  else
    (st1, false)

/-- Modelled from the spec: outcome of one streaming run of the external
agent library — the text deltas in emission order and the tool-call and
tool-return messages of the turn. -/
structure StreamResult where
  deltas : List String
  tool_messages : List ModelMessage
deriving DecidableEq

/-- Final assistant text of a streaming run: the spec requires the streamed
deltas, concatenated in emission order, to be exactly that text. -/
def StreamResult.final_text (r : StreamResult) : String :=
  String.join r.deltas

/-- Modelled from the spec: new_messages of the completed streaming run — the
user prompt, the tool messages and the final assistant text, in order. -/
def new_messages_of_turn (user_input : String) (r : StreamResult) :
    List ModelMessage :=
  ModelMessage.request [MessagePart.userPrompt user_input] ::
    (r.tool_messages ++
      [ModelMessage.response [MessagePart.text r.final_text]])

/-- Embedding of run_agent_with_streaming of src/streamlit_app.py together
with its consuming loop in main: full_response accumulates the deltas in
emission order, and on stream completion the new messages of the turn are
appended to the session history exactly once. -/
def run_agent_with_streaming (st : SessionState) (user_input : String)
    (r : StreamResult) : SessionState × String :=
  let full_response := r.deltas.foldl (fun acc message => acc ++ message) ""
  (⟨some (st.messages.getD [] ++ new_messages_of_turn user_input r),
    st.agent_deps⟩, full_response)

/-- Text content of an assistant text part. -/
def assistant_text_of_part : MessagePart → Option String
  | MessagePart.text c => some c
  | _ => none

/-- Assistant text committed by a list of messages: the text part of the
latest response message. -/
def committed_assistant_text (msgs : List ModelMessage) : Option String :=
  msgs.reverse.findSome? fun m =>
    match m with
    | ModelMessage.response parts => parts.findSome? assistant_text_of_part
    | ModelMessage.request _ => none

/-- Soft-failure note recorded on a turn. -/
inductive TurnNote where
  | toolLoopExceeded
deriving DecidableEq

/-- Decision of the external LLM at one reasoning step: either a final
answer or a request to invoke the retrieve tool with a search query. -/
inductive LLMStep where
  | finalAnswer (text : String)
  | toolCall (search_query : String)

/-- Completed turn of the orchestrator. -/
structure TurnOutcome where
  answer : String
  tool_iterations : Nat
  notes : List TurnNote
deriving DecidableEq

/-- Modelled from the spec: the orchestrator turn loop behind the Agent
object configured in src/rag_agent.py. While tool-call budget remains, a
reasoning step either finishes or invokes the tool and returns to
reasoning; once the budget is spent, a further tool request transitions
directly to responding from the gathered context, recording a
toolLoopExceeded note. -/
def turn_loop (llm : List String → LLMStep)
    (force_answer : List String → String) (tool : String → String) :
    Nat → List String → Nat → TurnOutcome
  | 0, ctx, used =>
    match llm ctx with
    | LLMStep.finalAnswer t => ⟨t, used, []⟩
    | LLMStep.toolCall _ =>
        ⟨force_answer ctx, used, [TurnNote.toolLoopExceeded]⟩
  | fuel + 1, ctx, used =>
    match llm ctx with
    | LLMStep.finalAnswer t => ⟨t, used, []⟩
    | LLMStep.toolCall q =>
        turn_loop llm force_answer tool fuel (ctx ++ [tool q]) (used + 1)

/-- Modelled from the spec: recommended default cap on tool-call iterations
per turn. -/
def default_tool_call_cap : Nat := 1

/-- Modelled from the spec: one orchestrated turn under a configured
tool-call cap, starting from an empty gathered context. -/
def orchestrate_turn (llm : List String → LLMStep)
    (force_answer : List String → String) (tool : String → String)
    (cap : Nat) : TurnOutcome :=
  turn_loop llm force_answer tool cap [] 0

/-- UI events emitted by the display-sources block. -/
inductive UIEvent where
  | errorBox (message : String)
  | sourcesExpander (urls : List String)
deriving DecidableEq

/-- Source value contributed by one result metadata entry: present,
non-empty source fields only, matching the Python truthiness tests on meta
and on meta.get of the source key. -/
def pick_source (m : Option Metadata) : Option String :=
  m.bind fun meta =>
    (meta_get "source" meta).bind fun s => if s = "" then none else some s

/-- Embedding of the source_urls computation of main in
src/streamlit_app.py: the distinct non-empty source metadata values,
sorted. -/
def source_urls_of (metadatas : List (Option Metadata)) : List String :=
  ((metadatas.filterMap pick_source).dedup).insertionSort (· ≤ ·)

/-- Embedding of the display-sources try/except block of main in
src/streamlit_app.py: the re-query outcome either succeeds, showing the
sources expander when any sources were found, or raises, in which case the
except branch renders a non-fatal inline error; session state is returned
untouched on every path and the function is total, so no exception escapes
the turn. -/
def display_sources (st : SessionState)
    (query_outcome : Except RetrievalError (List (Option Metadata))) :
    SessionState × List UIEvent :=
  match query_outcome with
  | Except.error _ => (st, [UIEvent.errorBox "Error retrieving sources"])
  | Except.ok metadatas =>
    let source_urls := source_urls_of metadatas
    (st, if source_urls = [] then [] else [UIEvent.sourcesExpander source_urls])

/-- Union of the metadata keys occurring across the exported rows, as the
all_meta_keys set of src/view_chroma_data_full_export.py. -/
def all_meta_keys (metadatas : List (Option Metadata)) : List String :=
  (metadatas.filterMap id).flatMap fun meta => meta.map Prod.fst

/-- Sorted duplicate-free union of the metadata keys, matching
sorted(list(all_meta_keys)) in src/view_chroma_data_full_export.py. -/
def sorted_meta_keys (metadatas : List (Option Metadata)) : List String :=
  ((all_meta_keys metadatas).dedup).insertionSort (· ≤ ·)

/-- Cell written for one metadata column of one row: the value bound to the
key, or the empty cell when the row has no metadata or lacks the key — the
csv writer renders both a missing dict key and None as the empty string. -/
def csv_cell (meta : Option Metadata) (key : String) : String :=
  match meta with
  | none => ""
  | some m => (meta_get key m).getD ""

/-- Assignment into a Python dict modelled as an association list without
duplicate keys: an existing binding is overwritten in place, a new key is
appended at the end. Values are Option String so that a stored None stays
distinct from an absent key. -/
def dict_set (d : List (String × Option String)) (key : String)
    (v : Option String) : List (String × Option String) :=
  match d with
  | [] => [(key, v)]
  | kv :: rest =>
    if kv.1 = key then (key, v) :: rest else kv :: dict_set rest key v

/-- Lookup in the modelled Python dict: some value when the key is bound
(the value itself may be None), none when the key is absent. -/
def dict_get (d : List (String × Option String)) (key : String) :
    Option (Option String) :=
  (d.find? fun kv => kv.1 == key).map Prod.snd

/-- Row dict built by src/view_chroma_data_full_export.py for one item: the
id and document entries first, then — when the row metadata is truthy — one
assignment per metadata key column. An assignment whose key is literally id
or document overwrites those entries, exactly as the Python dict does. -/
def csv_row_dict (id document : String) (meta : Option Metadata)
    (keys : List String) : List (String × Option String) :=
  match meta with
  | none => [("id", some id), ("document", some document)]
  | some m =>
    if m = [] then [("id", some id), ("document", some document)]
    else
      keys.foldl (fun r key => dict_set r key (meta_get key m))
        [("id", some id), ("document", some document)]

/-- Cell the DictWriter emits for one fieldname from a row dict: the bound
value, with both an absent fieldname (restval) and a bound None rendered as
the empty string. -/
def render_cell (d : List (String × Option String)) (field : String) :
    String :=
  ((dict_get d field).join).getD ""

/-- One data row of the export, as DictWriter writes it: one cell per
header fieldname — including a fieldname duplicated by a metadata key named
id or document, both of whose occurrences render the single dict entry —
looked up in the row dict. -/
def csv_row (id document : String) (meta : Option Metadata)
    (keys : List String) : List String :=
  ("id" :: "document" :: keys).map
    (render_cell (csv_row_dict id document meta keys))

/-- Embedding of export_collection_to_csv of
src/view_chroma_data_full_export.py as the list of rows written: with no
items, a fixed fallback header alone; otherwise the header row — id,
document, then the sorted union of metadata keys — followed by one data row
per id. -/
def export_collection_to_csv (ids documents : List String)
    (metadatas : List (Option Metadata)) : List (List String) :=
  if ids = [] then
    [["id", "document", "source", "chunk_index", "headers", "char_count",
      "word_count"]]
  else
    let keys := if metadatas = [] then [] else sorted_meta_keys metadatas
    ("id" :: "document" :: keys) ::
      (List.range ids.length).map fun i =>
        csv_row (ids.getD i "") (documents.getD i "") (metadatas.getD i none)
          keys

/-- C1: for every tool invocation, the result count handed to the retrieval
query is exactly the n_results field of the session agent dependencies, for
every search query the model supplies and every behaviour of the retrieval
function; the model-facing tool argument is the search query alone, so no
tool-call argument selects k. -/
theorem retrieve_result_count_from_deps
    (query_fn : Collection → String → Nat → Except RetrievalError (List QueryResult))
    (deps : RAGDeps) (search_query : String) :
    retrieve query_fn deps search_query =
      (query_fn
        (get_or_create_collection deps.chroma_client deps.collection_name
          deps.embedding_model)
        search_query deps.n_results).map format_results_as_context := by
  unfold retrieve
  cases query_fn
      (get_or_create_collection deps.chroma_client deps.collection_name
        deps.embedding_model)
      search_query deps.n_results <;> rfl

/-- C3: run_rag_agent constructs RAGDeps without supplying the required
n_results field, so for every store, agent behaviour, question and argument
combination it returns the TypeError from the dataclass constructor and
never an answer produced by the agent. -/
theorem run_rag_agent_raises_type_error (store : String → List Collection)
    (agent_run : String → RAGDeps → String) (question : String)
    (collection_name : String) (db_directory : String)
    (embedding_model : String) (n_results : Nat) :
    run_rag_agent store agent_run question collection_name db_directory
        embedding_model n_results =
      Except.error (PyError.typeError "RAGDeps missing required argument") := rfl

/-- C7: the context formatter is a pure function of the result set: equal
result sets render to byte-identical strings, and its type involves no
collection, session or other state. -/
theorem format_results_as_context_deterministic (rs1 rs2 : List QueryResult)
    (h : rs1 = rs2) :
    format_results_as_context rs1 = format_results_as_context rs2 := by
  rw [h]

/-- Witness for C7 at a concrete result set, with the rendering evaluated. -/
theorem format_results_as_context_deterministic_witness :
    format_results_as_context [⟨"id1", "body", some [("source", "u")], 0⟩] =
      format_results_as_context [⟨"id1", "body", some [("source", "u")], 0⟩] ∧
    format_results_as_context [⟨"id1", "body", some [("source", "u")], 0⟩] =
      "Source: u\nbody" :=
  ⟨format_results_as_context_deterministic _ _ rfl, by decide⟩

/-- C8: the display-sources block returns the session state unchanged on
every outcome, and on a raised retrieval failure it renders exactly the
non-fatal inline error event; the function is total, so the exception does
not escape the turn. -/
theorem display_sources_error_nonfatal (st : SessionState)
    (query_outcome : Except RetrievalError (List (Option Metadata))) :
    (display_sources st query_outcome).1 = st ∧
    (∀ e, query_outcome = Except.error e →
      (display_sources st query_outcome).2 =
        [UIEvent.errorBox "Error retrieving sources"]) := by
  cases query_outcome with
  | error e => exact ⟨rfl, fun _ _ => rfl⟩
  | ok metadatas => exact ⟨rfl, fun e h => Except.noConfusion h⟩

/-- Witness for C8 at a concrete state and a concrete query failure. -/
theorem display_sources_error_nonfatal_witness :
    (display_sources ⟨some [], none⟩
        (Except.error RetrievalError.queryFailure)).1 = ⟨some [], none⟩ ∧
    (display_sources ⟨some [], none⟩
        (Except.error RetrievalError.queryFailure)).2 =
      [UIEvent.errorBox "Error retrieving sources"] :=
  ⟨(display_sources_error_nonfatal ⟨some [], none⟩
      (Except.error RetrievalError.queryFailure)).1,
    (display_sources_error_nonfatal ⟨some [], none⟩
      (Except.error RetrievalError.queryFailure)).2
      RetrievalError.queryFailure rfl⟩

/-- C2: when the installed dependencies differ in collection name or result
count from the current selection, the bundle is replaced wholesale by a new
one and the message history cleared; when both match, the state is returned
unchanged whatever the selected temperature, so a temperature-only change
leaves the dependencies bundle and the history intact. -/
theorem update_agent_deps_reset_policy (store : String → List Collection)
    (st : SessionState) (d : RAGDeps) (ms : List ModelMessage)
    (selected_collection_name : String) (n_results_to_retrieve : Nat)
    (selected_temperature : Rat)
    (hdeps : st.agent_deps = some d) (hmsgs : st.messages = some ms) :
    ((d.collection_name ≠ selected_collection_name ∨
        d.n_results ≠ n_results_to_retrieve) →
      update_agent_deps store st selected_collection_name n_results_to_retrieve
          selected_temperature =
        (⟨some [],
          some (get_agent_deps store selected_collection_name
            n_results_to_retrieve)⟩, true)) ∧
    (d.collection_name = selected_collection_name →
      d.n_results = n_results_to_retrieve →
      update_agent_deps store st selected_collection_name n_results_to_retrieve
          selected_temperature = (st, false)) := by
  obtain ⟨msgs0, deps0⟩ := st
  simp only [SessionState.mk.injEq] at hdeps hmsgs
  subst hdeps
  subst hmsgs
  constructor
  · intro h
    have hc : (⟨some ((some ms).getD []), some d⟩ : SessionState).agent_deps = none ∨
        (⟨some ((some ms).getD []), some d⟩ : SessionState).agent_deps.map
            RAGDeps.collection_name ≠ some selected_collection_name ∨
        (⟨some ((some ms).getD []), some d⟩ : SessionState).agent_deps.map
            RAGDeps.n_results ≠ some n_results_to_retrieve := by
      rcases h with h | h
      · exact Or.inr (Or.inl (by simpa using h))
      · exact Or.inr (Or.inr (by simpa using h))
    simp only [update_agent_deps]
    rw [if_pos hc]
  · intro h1 h2
    have hc : ¬ ((⟨some ((some ms).getD []), some d⟩ : SessionState).agent_deps = none ∨
        (⟨some ((some ms).getD []), some d⟩ : SessionState).agent_deps.map
            RAGDeps.collection_name ≠ some selected_collection_name ∨
        (⟨some ((some ms).getD []), some d⟩ : SessionState).agent_deps.map
            RAGDeps.n_results ≠ some n_results_to_retrieve) := by
      simp [h1, h2]
    simp only [update_agent_deps]
    rw [if_neg hc]
    rfl

/-- Witness for C2: with matching collection name and result count the state
is untouched for an arbitrary temperature. -/
theorem update_agent_deps_reset_policy_witness :
    update_agent_deps (fun _ => [])
        ⟨some [], some ⟨⟨"./chroma_db", []⟩, "docs", "all-MiniLM-L6-v2", 5⟩⟩
        "docs" 5 (1 : Rat) =
      (⟨some [], some ⟨⟨"./chroma_db", []⟩, "docs", "all-MiniLM-L6-v2", 5⟩⟩,
        false) :=
  (update_agent_deps_reset_policy (fun _ => [])
      ⟨some [], some ⟨⟨"./chroma_db", []⟩, "docs", "all-MiniLM-L6-v2", 5⟩⟩
      ⟨⟨"./chroma_db", []⟩, "docs", "all-MiniLM-L6-v2", 5⟩ []
      "docs" 5 (1 : Rat) rfl rfl).2 rfl rfl

/-- C4: a query with positive k over a collection of n items, whose
embedding step succeeds, returns an ok result list of length exactly
min k n; in particular an empty collection yields the empty list as an
ordinary value, distinct from a failure. -/
theorem query_collection_length_min
    (embed : String → Except RetrievalError (List Int))
    (dist : List Int → List Int → Nat) (c : Collection) (query_text : String)
    (k : Nat) (v : List Int) (hk : 1 ≤ k)
    (hembed : embed query_text = Except.ok v) :
    ∃ rs, query_collection embed dist c query_text k = Except.ok rs ∧
      rs.length = min k c.items.length := by
  refine ⟨_, by rw [query_collection, hembed], ?_⟩
  simp [List.length_take, List.length_insertionSort]

/-- Witness for C4: an empty collection with k = 5 yields the ok empty
result list. -/
theorem query_collection_length_min_witness :
    ∃ rs, query_collection (fun _ => Except.ok [0]) (fun _ _ => 0)
        ⟨"docs", "all-MiniLM-L6-v2", []⟩ "q" 5 = Except.ok rs ∧
      rs.length = min 5 0 :=
  query_collection_length_min (fun _ => Except.ok [0]) (fun _ _ => 0)
    ⟨"docs", "all-MiniLM-L6-v2", []⟩ "q" 5 [0] (by decide) rfl

/-- C5: the streamed deltas of a turn, accumulated in emission order into
full_response, equal the assistant text committed to the session history for
that turn, and the history is extended exactly once with the new messages of
the turn. -/
theorem streaming_deltas_equal_committed_text (st : SessionState)
    (user_input : String) (r : StreamResult) :
    (run_agent_with_streaming st user_input r).1.messages =
      some (st.messages.getD [] ++ new_messages_of_turn user_input r) ∧
    committed_assistant_text (new_messages_of_turn user_input r) =
      some ((run_agent_with_streaming st user_input r).2) := by
  constructor
  · rfl
  · have h1 : (new_messages_of_turn user_input r).reverse =
        ModelMessage.response [MessagePart.text r.final_text] ::
          (r.tool_messages.reverse ++
            [ModelMessage.request [MessagePart.userPrompt user_input]]) := by
      simp [new_messages_of_turn]
    unfold committed_assistant_text
    rw [h1]
    simp [List.findSome?_cons, assistant_text_of_part]
    rfl

/-- Bound on the turn loop: the tool iterations counted never exceed the
starting count plus the remaining budget, and the notes are empty or the
single toolLoopExceeded warning. -/
theorem turn_loop_iterations_bound (llm : List String → LLMStep)
    (force_answer : List String → String) (tool : String → String) :
    ∀ (fuel : Nat) (ctx : List String) (used : Nat),
      (turn_loop llm force_answer tool fuel ctx used).tool_iterations ≤
        used + fuel ∧
      ((turn_loop llm force_answer tool fuel ctx used).notes = [] ∨
        (turn_loop llm force_answer tool fuel ctx used).notes =
          [TurnNote.toolLoopExceeded])
  | 0, ctx, used => by
    unfold turn_loop
    cases h : llm ctx <;> simp [h]
  | fuel + 1, ctx, used => by
    unfold turn_loop
    cases h : llm ctx with
    | finalAnswer t => simp [h]
    | toolCall q =>
      simp only [h]
      have ih := turn_loop_iterations_bound llm force_answer tool fuel
        (ctx ++ [tool q]) (used + 1)
      exact ⟨by have := ih.1; omega, ih.2⟩

/-- Turn loop under an LLM that always requests another tool call: the
budget is spent fully and the toolLoopExceeded note is recorded while the
turn still completes. -/
theorem turn_loop_exhausts_budget (llm : List String → LLMStep)
    (force_answer : List String → String) (tool : String → String)
    (hllm : ∀ ctx, ∃ q, llm ctx = LLMStep.toolCall q) :
    ∀ (fuel : Nat) (ctx : List String) (used : Nat),
      (turn_loop llm force_answer tool fuel ctx used).notes =
        [TurnNote.toolLoopExceeded] ∧
      (turn_loop llm force_answer tool fuel ctx used).tool_iterations =
        used + fuel
  | 0, ctx, used => by
    obtain ⟨q, hq⟩ := hllm ctx
    unfold turn_loop
    simp [hq]
  | fuel + 1, ctx, used => by
    obtain ⟨q, hq⟩ := hllm ctx
    unfold turn_loop
    simp only [hq]
    have ih := turn_loop_exhausts_budget llm force_answer tool hllm fuel
      (ctx ++ [tool q]) (used + 1)
    exact ⟨ih.1, by have := ih.2; omega⟩

/-- C6: a turn never performs more tool-call iterations than the configured
cap, whose recommended default is one; its notes are empty or exactly the
recorded toolLoopExceeded warning, and under an LLM that keeps requesting
tool calls the turn still completes, with the cap spent exactly and the
warning recorded, rather than looping unboundedly. -/
theorem orchestrate_turn_respects_cap (llm : List String → LLMStep)
    (force_answer : List String → String) (tool : String → String)
    (cap : Nat) :
    (orchestrate_turn llm force_answer tool cap).tool_iterations ≤ cap ∧
    ((orchestrate_turn llm force_answer tool cap).notes = [] ∨
      (orchestrate_turn llm force_answer tool cap).notes =
        [TurnNote.toolLoopExceeded]) ∧
    default_tool_call_cap = 1 ∧
    ((∀ ctx, ∃ q, llm ctx = LLMStep.toolCall q) →
      (orchestrate_turn llm force_answer tool cap).notes =
        [TurnNote.toolLoopExceeded] ∧
      (orchestrate_turn llm force_answer tool cap).tool_iterations = cap) := by
  have h := turn_loop_iterations_bound llm force_answer tool cap [] 0
  refine ⟨by simpa using h.1, h.2, rfl, ?_⟩
  intro hllm
  have h2 := turn_loop_exhausts_budget llm force_answer tool hllm cap [] 0
  exact ⟨h2.1, by simpa using h2.2⟩

/-- Witness for C6: under the default cap of one and an LLM that always
requests a tool call, the turn completes with the warning recorded. -/
theorem orchestrate_turn_respects_cap_witness :
    (orchestrate_turn (fun _ => LLMStep.toolCall "q") (fun _ => "no answer")
        (fun _ => "ctx") default_tool_call_cap).tool_iterations ≤
      default_tool_call_cap ∧
    (orchestrate_turn (fun _ => LLMStep.toolCall "q") (fun _ => "no answer")
        (fun _ => "ctx") default_tool_call_cap).notes =
      [TurnNote.toolLoopExceeded] :=
  ⟨(orchestrate_turn_respects_cap (fun _ => LLMStep.toolCall "q")
      (fun _ => "no answer") (fun _ => "ctx") default_tool_call_cap).1,
    ((orchestrate_turn_respects_cap (fun _ => LLMStep.toolCall "q")
      (fun _ => "no answer") (fun _ => "ctx") default_tool_call_cap).2.2.2
      (fun ctx => ⟨"q", rfl⟩)).1⟩

/-- Characterization of the source value contributed by one metadata entry:
exactly the non-empty bound source values pass the filter. -/
theorem pick_source_eq_some (m : Option Metadata) (s : String) :
    pick_source m = some s ↔
      ∃ meta, m = some meta ∧ meta_get "source" meta = some s ∧ s ≠ "" := by
  cases m with
  | none => simp [pick_source]
  | some meta =>
    cases h : meta_get "source" meta with
    | none =>
      simp only [pick_source, Option.some_bind, h, Option.none_bind]
      constructor
      · intro hcon
        cases hcon
      · rintro ⟨meta2, hm, hget, hs⟩
        cases hm
        rw [h] at hget
        cases hget
    | some t =>
      simp only [pick_source, Option.some_bind, h]
      by_cases ht : t = ""
      · subst ht
        rw [if_pos rfl]
        constructor
        · intro hcon
          cases hcon
        · rintro ⟨meta2, hm, hget, hs⟩
          cases hm
          rw [h] at hget
          cases hget
          exact absurd rfl hs
      · rw [if_neg ht]
        constructor
        · rintro hts
          cases hts
          exact ⟨meta, rfl, h, ht⟩
        · rintro ⟨meta2, hm, hget, hs⟩
          cases hm
          rw [h] at hget
          cases hget
          rfl

/-- C9: the source list the display block shows for a turn is exactly the
distinct non-empty source metadata values of the results of the retrieval
run for that turn: membership holds precisely for the non-empty bound
source values, the list is sorted with no duplicates, and a non-empty list
is displayed verbatim in the sources expander. -/
theorem displayed_sources_distinct_sorted (metadatas : List (Option Metadata)) :
    (source_urls_of metadatas).Sorted (· ≤ ·) ∧
    (source_urls_of metadatas).Nodup ∧
    (∀ s, s ∈ source_urls_of metadatas ↔
      ∃ m, some m ∈ metadatas ∧ meta_get "source" m = some s ∧ s ≠ "") ∧
    (∀ st, source_urls_of metadatas ≠ [] →
      (display_sources st (Except.ok metadatas)).2 =
        [UIEvent.sourcesExpander (source_urls_of metadatas)]) := by
  refine ⟨List.sorted_insertionSort _ _,
    (List.perm_insertionSort _ _).nodup_iff.mpr (List.nodup_dedup _), ?_, ?_⟩
  · intro s
    simp only [source_urls_of, List.mem_insertionSort, List.mem_dedup,
      List.mem_filterMap]
    constructor
    · rintro ⟨m, hm, hpick⟩
      obtain ⟨meta, rfl, hget, hne⟩ := (pick_source_eq_some m s).mp hpick
      exact ⟨meta, hm, hget, hne⟩
    · rintro ⟨meta, hm, hget, hne⟩
      exact ⟨some meta, hm,
        (pick_source_eq_some (some meta) s).mpr ⟨meta, rfl, hget, hne⟩⟩
  · intro st hne
    simp [display_sources, hne]

/-- Witness for C9: two results sharing one source value and one result
without metadata display the single deduplicated source. -/
theorem displayed_sources_distinct_sorted_witness :
    ("u" ∈ source_urls_of
        [some [("source", "u")], some [("source", "u")], none]) ∧
    (display_sources ⟨some [], none⟩
        (Except.ok [some [("source", "u")], some [("source", "u")], none])).2 =
      [UIEvent.sourcesExpander
        (source_urls_of [some [("source", "u")], some [("source", "u")], none])] :=
  ⟨((displayed_sources_distinct_sorted
        [some [("source", "u")], some [("source", "u")], none]).2.2.1 "u").mpr
      ⟨[("source", "u")], by decide, by decide, by decide⟩,
    (displayed_sources_distinct_sorted
        [some [("source", "u")], some [("source", "u")], none]).2.2.2
      ⟨some [], none⟩ (by decide)⟩

/-- Lookup after assignment of the same key: the newly assigned value. -/
theorem dict_get_set_self (d : List (String × Option String)) (key : String)
    (v : Option String) : dict_get (dict_set d key v) key = some v := by
  induction d with
  | nil => simp [dict_set, dict_get]
  | cons kv rest ih =>
    by_cases h : kv.1 = key
    · simp [dict_set, h, dict_get]
    · have hb : (kv.1 == key) = false := beq_eq_false_iff_ne.mpr h
      simpa [dict_set, h, dict_get, hb] using ih

/-- Lookup after assignment of a different key: unchanged. -/
theorem dict_get_set_ne (d : List (String × Option String)) (k1 k2 : String)
    (v : Option String) (hne : k1 ≠ k2) :
    dict_get (dict_set d k1 v) k2 = dict_get d k2 := by
  have hb1 : (k1 == k2) = false := beq_eq_false_iff_ne.mpr hne
  induction d with
  | nil => simp [dict_set, dict_get, hb1]
  | cons kv rest ih =>
    by_cases h : kv.1 = k1
    · have hbkv : (kv.1 == k2) = false := by
        rw [h]
        exact hb1
      simp [dict_set, h, dict_get, hb1, hbkv]
    · by_cases h2 : kv.1 = k2
      · have hbkv : (kv.1 == k2) = true := beq_iff_eq.mpr h2
        simp [dict_set, h, dict_get, hbkv]
      · have hbkv : (kv.1 == k2) = false := beq_eq_false_iff_ne.mpr h2
        simpa [dict_set, h, dict_get, hbkv] using ih

/-- Folded row-dict assignments over keys not containing the looked-up key
leave its binding unchanged. -/
theorem dict_get_foldl_not_mem (f : String → Option String) :
    ∀ (keys : List String) (key : String), key ∉ keys →
      ∀ d, dict_get (keys.foldl (fun r k => dict_set r k (f k)) d) key =
        dict_get d key
  | [], key, hk, d => rfl
  | k :: rest, key, hk, d => by
    rw [List.foldl_cons]
    rw [dict_get_foldl_not_mem f rest key
      (fun hcon => hk (List.mem_cons_of_mem _ hcon)) (dict_set d k (f k))]
    exact dict_get_set_ne d k key (f k)
      (fun hcon => hk (hcon ▸ List.mem_cons_self k rest))

/-- Folded row-dict assignments over duplicate-free keys bind each key to
its assigned value. -/
theorem dict_get_foldl_mem (f : String → Option String) :
    ∀ (keys : List String) (key : String), keys.Nodup → key ∈ keys →
      ∀ d, dict_get (keys.foldl (fun r k => dict_set r k (f k)) d) key =
        some (f key)
  | [], key, _, hk, d => absurd hk (List.not_mem_nil key)
  | k :: rest, key, hnd, hk, d => by
    rw [List.foldl_cons]
    rcases List.mem_cons.mp hk with heq | hmem
    · subst heq
      rw [dict_get_foldl_not_mem f rest key (List.nodup_cons.mp hnd).1
        (dict_set d key (f key))]
      exact dict_get_set_self d key (f key)
    · exact dict_get_foldl_mem f rest key (List.nodup_cons.mp hnd).2 hmem
        (dict_set d k (f k))

/-- Row dict of a metadata-less row: the id and document entries alone. -/
theorem csv_row_dict_none (idv docv : String) (keys : List String) :
    csv_row_dict idv docv none keys =
      [("id", some idv), ("document", some docv)] := rfl

/-- Row dict of a row carrying a metadata map: the initial entries when the
map is empty, else the folded assignments over the key columns. -/
theorem csv_row_dict_some (idv docv : String) (m : Metadata)
    (keys : List String) :
    csv_row_dict idv docv (some m) keys =
      if m = [] then [("id", some idv), ("document", some docv)]
      else
        keys.foldl (fun r key => dict_set r key (meta_get key m))
          [("id", some idv), ("document", some docv)] := rfl

/-- Data row emitted when no metadata key collides with the id or document
fieldnames: the id, the document, then one csv_cell per metadata key. -/
theorem csv_row_no_collision (idv docv : String) (meta : Option Metadata)
    (keys : List String) (hid : "id" ∉ keys) (hdoc : "document" ∉ keys)
    (hnd : keys.Nodup) :
    csv_row idv docv meta keys = idv :: docv :: keys.map (csv_cell meta) := by
  have hrow0id :
      dict_get [("id", some idv), ("document", some docv)] "id" =
        some (some idv) := rfl
  have hrow0doc :
      dict_get [("id", some idv), ("document", some docv)] "document" =
        some (some docv) := rfl
  have hrow0key : ∀ key, key ≠ "id" → key ≠ "document" →
      dict_get [("id", some idv), ("document", some docv)] key = none := by
    intro key h1 h2
    have b1 : (("id" : String) == key) = false :=
      beq_eq_false_iff_ne.mpr (Ne.symm h1)
    have b2 : (("document" : String) == key) = false :=
      beq_eq_false_iff_ne.mpr (Ne.symm h2)
    simp [dict_get, b1, b2]
  have h1 : render_cell (csv_row_dict idv docv meta keys) "id" = idv := by
    cases meta with
    | none => simp [csv_row_dict_none, render_cell, hrow0id]
    | some m =>
      by_cases hm : m = []
      · simp [csv_row_dict_some, hm, render_cell, hrow0id]
      · unfold render_cell
        rw [csv_row_dict_some, if_neg hm,
          dict_get_foldl_not_mem _ keys "id" hid, hrow0id]
        rfl
  have h2 : render_cell (csv_row_dict idv docv meta keys) "document" =
      docv := by
    cases meta with
    | none => simp [csv_row_dict_none, render_cell, hrow0doc]
    | some m =>
      by_cases hm : m = []
      · simp [csv_row_dict_some, hm, render_cell, hrow0doc]
      · unfold render_cell
        rw [csv_row_dict_some, if_neg hm,
          dict_get_foldl_not_mem _ keys "document" hdoc, hrow0doc]
        rfl
  have h3 : ∀ key ∈ keys,
      render_cell (csv_row_dict idv docv meta keys) key =
        csv_cell meta key := by
    intro key hkey
    have hknid : key ≠ "id" := fun hcon => hid (hcon ▸ hkey)
    have hkndoc : key ≠ "document" := fun hcon => hdoc (hcon ▸ hkey)
    cases meta with
    | none =>
      unfold render_cell
      rw [csv_row_dict_none, hrow0key key hknid hkndoc]
      rfl
    | some m =>
      by_cases hm : m = []
      · subst hm
        unfold render_cell
        rw [csv_row_dict_some, if_pos rfl, hrow0key key hknid hkndoc]
        rfl
      · unfold render_cell
        rw [csv_row_dict_some, if_neg hm,
          dict_get_foldl_mem _ keys key hnd hkey]
        simp [csv_cell]
  unfold csv_row
  rw [List.map_cons, List.map_cons, h1, h2, List.map_congr_left h3]

/-- Counterexample for C10 as stated: with a metadata key literally named
id, the row dict assignment overwrites the id entry and duplicates the id
column; a data row whose metadata is absent then renders the row id in the
metadata key column, not the empty cell the claim requires for an absent
key. -/
theorem export_csv_collision_counterexample :
    sorted_meta_keys [some [("id", "X")], none] = ["id"] ∧
    (export_collection_to_csv ["2", "3"] ["dA", "dB"]
        [some [("id", "X")], none]).getD 1 [] = ["X", "dA", "X"] ∧
    (export_collection_to_csv ["2", "3"] ["dA", "dB"]
        [some [("id", "X")], none]).getD 2 [] = ["3", "dB", "3"] ∧
    ((export_collection_to_csv ["2", "3"] ["dA", "dB"]
        [some [("id", "X")], none]).getD 2 []).getD 2 "" ≠ "" := by decide

/-- C10 (amended): for an export holding at least one item none of whose
metadata keys is named id or document, the header row is id, document, then
the sorted duplicate-free union of the metadata keys occurring across the
exported rows; data row i holds the id, the document, and under each key
column the value bound to that key in the row metadata, with absent keys
and absent metadata yielding the empty cell. -/
theorem export_csv_header_and_rows (ids documents : List String)
    (metadatas : List (Option Metadata)) (hne : ids ≠ [])
    (hlen : metadatas.length = ids.length)
    (hid : "id" ∉ sorted_meta_keys metadatas)
    (hdoc : "document" ∉ sorted_meta_keys metadatas) :
    (export_collection_to_csv ids documents metadatas).head? =
      some ("id" :: "document" :: sorted_meta_keys metadatas) ∧
    (sorted_meta_keys metadatas).Sorted (· ≤ ·) ∧
    (sorted_meta_keys metadatas).Nodup ∧
    (∀ k, k ∈ sorted_meta_keys metadatas ↔
      ∃ m, some m ∈ metadatas ∧ k ∈ m.map Prod.fst) ∧
    (∀ i, i < ids.length →
      (export_collection_to_csv ids documents metadatas).getD (i + 1) [] =
        ids.getD i "" :: documents.getD i "" ::
          (sorted_meta_keys metadatas).map
            (csv_cell (metadatas.getD i none))) ∧
    (∀ meta key, meta_get key meta = none → csv_cell (some meta) key = "") ∧
    (∀ meta key v, meta_get key meta = some v → csv_cell (some meta) key = v) := by
  have hnodup : (sorted_meta_keys metadatas).Nodup :=
    (List.perm_insertionSort _ _).nodup_iff.mpr (List.nodup_dedup _)
  have hmeta : metadatas ≠ [] := by
    intro hcon
    rw [hcon] at hlen
    exact hne (List.length_eq_zero.mp hlen.symm)
  have hexp : export_collection_to_csv ids documents metadatas =
      ("id" :: "document" :: sorted_meta_keys metadatas) ::
        (List.range ids.length).map (fun i =>
          csv_row (ids.getD i "") (documents.getD i "") (metadatas.getD i none)
            (sorted_meta_keys metadatas)) := by
    simp [export_collection_to_csv, hne, hmeta]
  refine ⟨by rw [hexp]; rfl, List.sorted_insertionSort _ _, hnodup,
    ?_, ?_, ?_, ?_⟩
  · intro k
    simp only [sorted_meta_keys, all_meta_keys, List.mem_insertionSort,
      List.mem_dedup, List.mem_flatMap, List.mem_filterMap]
    constructor
    · rintro ⟨meta, ⟨mo, hmo, hido⟩, hk⟩
      cases mo with
      | none => cases hido
      | some meta2 =>
        simp only [id_eq, Option.some.injEq] at hido
        subst hido
        exact ⟨meta2, hmo, hk⟩
    · rintro ⟨m, hm, hk⟩
      exact ⟨m, ⟨some m, hm, rfl⟩, hk⟩
  · intro i hi
    rw [hexp, List.getD_cons_succ, List.getD_eq_getElem?_getD]
    simp only [List.getElem?_map, List.getElem?_range hi, Option.map_some,
      Option.getD_some]
    exact csv_row_no_collision _ _ _ _ hid hdoc hnodup
  · intro meta key h
    simp [csv_cell, h]
  · intro meta key v h
    simp [csv_cell, h]

/-- Witness for C10: a one-item export with one non-colliding metadata
key. -/
theorem export_csv_header_and_rows_witness :
    (export_collection_to_csv ["1"] ["d"] [some [("source", "u")]]).head? =
      some ("id" :: "document" :: sorted_meta_keys [some [("source", "u")]]) ∧
    (export_collection_to_csv ["1"] ["d"] [some [("source", "u")]]).getD 1 [] =
      "1" :: "d" :: (sorted_meta_keys [some [("source", "u")]]).map
        (csv_cell (some [("source", "u")])) :=
  ⟨(export_csv_header_and_rows ["1"] ["d"] [some [("source", "u")]]
      (by decide) rfl (by decide) (by decide)).1,
    (export_csv_header_and_rows ["1"] ["d"] [some [("source", "u")]]
      (by decide) rfl (by decide) (by decide)).2.2.2.2.1 0 (by decide)⟩
